import Mathlib

/-!
Verification of the post-processing aggregation core of the cbt repository.

The Python modules under `src/post_processing/` are shallowly embedded here:
float values are modelled exactly as real numbers, Python ints as `Int`,
Python dicts keyed by strings as insertion-ordered association lists, and
Python exceptions as the `PyErr` error type threaded through `Except`.
Each definition is translated from the named source function.
-/

namespace Cbt

/-- Python exceptions that the embedded code can raise.  The spec's error
taxonomy maps onto these: `MalformedInput`/`EmptyInput` surface as the reader
returning an empty dict (whose later field access raises `keyError`),
`MissingIodepth` surfaces as `keyError` on the missing `iodepth` field,
`DivisionByZero` as `zeroDivisionError` and `InvalidInput` as
`valueError` (math domain error). -/
inductive PyErr where
  | keyError : PyErr
  | valueError : PyErr
  | zeroDivisionError : PyErr
  | indexError : PyErr
deriving Repr, DecidableEq

/-! ## Numeric combinators (`src/post_processing/common.py`) -/

/-- Accumulation loop of `sum_standard_deviation_values` (common.py:300-303):
`weighted_stddev += (operations[index] - 1) * stddev * stddev
 + operations[index] * (latencies[index] * latencies[index])`
folded in list order over the enumerated standard deviations. -/
def weightedStddevAcc (std_deviations : List ℝ) (operations : List ℤ) (latencies : List ℝ) : ℝ :=
  (std_deviations.zip (operations.zip latencies)).foldl
    (fun acc p => acc + ((p.2.1 : ℝ) - 1) * p.1 * p.1 + (p.2.1 : ℝ) * (p.2.2 * p.2.2)) 0

/-- Embedding of `sum_standard_deviation_values` (common.py:281-309).
Python raises `IndexError` when `operations` or `latencies` is shorter than
`std_deviations` (the loop indexes both), `ZeroDivisionError` when
`total_ios - 1 == 0`, and `ValueError` from `math.sqrt` on a negative
radicand.  Otherwise it returns
`sqrt((weighted_stddev - total_ios * combined_latency^2) / (total_ios - 1))`. -/
noncomputable def sum_standard_deviation_values (std_deviations : List ℝ) (operations : List ℤ)
    (latencies : List ℝ) (total_ios : ℤ) (combined_latency : ℝ) : Except PyErr ℝ :=
  if std_deviations.length ≤ operations.length ∧ std_deviations.length ≤ latencies.length then
    if total_ios = 1 then .error .zeroDivisionError
    else
      let weighted_stddev := weightedStddevAcc std_deviations operations latencies
      let radicand :=
        (weighted_stddev - (total_ios : ℝ) * combined_latency * combined_latency) /
          ((total_ios : ℝ) - 1)
      if radicand < 0 then .error .valueError
      else .ok (Real.sqrt radicand)
  else .error .indexError

/-- Accumulation loop of `sum_mean_values` (common.py:339-340):
`weighted_latency += latency * num_ops[index]`. -/
def weightedLatencyAcc (latencies : List ℝ) (num_ops : List ℤ) : ℝ :=
  (latencies.zip num_ops).foldl (fun acc p => acc + p.1 * (p.2 : ℝ)) 0

/-- Embedding of `sum_mean_values` (common.py:326-344): the weighted mean
`sum(mean * num_ops) / total_ios`, raising `IndexError` when `num_ops` is
shorter than `latencies` and `ZeroDivisionError` when `total_ios == 0`. -/
noncomputable def sum_mean_values (latencies : List ℝ) (num_ops : List ℤ)
    (total_ios : ℤ) : Except PyErr ℝ :=
  if latencies.length ≤ num_ops.length then
    if total_ios = 0 then .error .zeroDivisionError
    else .ok (weightedLatencyAcc latencies num_ops / (total_ios : ℝ))
  else .error .indexError

/-! ## String helpers shared by the readers -/

/-- Equality test for `Except` results, used to state concrete evaluations. -/
instance {ε α : Type} [DecidableEq ε] [DecidableEq α] : DecidableEq (Except ε α)
  | .ok a, .ok b =>
    if h : a = b then .isTrue (congrArg Except.ok h)
    else .isFalse (fun hh => h (Except.ok.inj hh))
  | .error a, .error b =>
    if h : a = b then .isTrue (congrArg Except.error h)
    else .isFalse (fun hh => h (Except.error.inj hh))
  | .ok _, .error _ => .isFalse (fun hh => Except.noConfusion hh)
  | .error _, .ok _ => .isFalse (fun hh => Except.noConfusion hh)

/-- Infix test on character lists (Python's substring containment). -/
def isInfixOfChars : List Char → List Char → Bool
  | needle, haystack =>
    if needle.isPrefixOf haystack then true
    else
      match haystack with
      | [] => false
      | _ :: t => isInfixOfChars needle t

/-- Python's `needle in haystack` substring test. -/
def strContains (haystack needle : String) : Bool :=
  isInfixOfChars needle.toList haystack.toList

/-- Split a character list at every occurrence of `c` (Python `s.split(c)`,
empty pieces preserved). -/
def splitOnChar (c : Char) : List Char → List (List Char)
  | [] => [[]]
  | x :: t =>
    match splitOnChar c t with
    | [] => [[x]]
    | h :: rest => if x = c then [] :: h :: rest else (x :: h) :: rest

/-- Python `s.split("/")`. -/
def splitSlash (s : String) : List String :=
  (splitOnChar '/' s.toList).map String.mk

/-- Python `s[n:]` (drop the first `n` characters). -/
def strDrop (s : String) (n : ℕ) : String :=
  String.mk (s.toList.drop n)

/-- Digit run of Python `int()`: every character must be a decimal digit and
the run must be nonempty. -/
def natOfDigits : List Char → ℕ → Option ℕ
  | [], acc => some acc
  | c :: rest, acc =>
    if c.isDigit then natOfDigits rest (10 * acc + (c.toNat - 48)) else none

/-- Python `int(s)`: optional surrounding whitespace, optional sign, then a
nonempty digit run; `none` models the `ValueError` raised otherwise. -/
def pyInt (s : String) : Option ℤ :=
  let cs := (s.toList.dropWhile Char.isWhitespace).reverse.dropWhile Char.isWhitespace |>.reverse
  match cs with
  | [] => none
  | '-' :: rest => if rest = [] then none else (natOfDigits rest 0).map (fun n => -(n : ℤ))
  | '+' :: rest => if rest = [] then none else (natOfDigits rest 0).map (fun n => (n : ℤ))
  | rest => (natOfDigits rest 0).map (fun n => (n : ℤ))

/-- Python slice `s[a:b]` with negative-index normalisation. -/
def pySlice (s : String) (a b : ℤ) : String :=
  let cs := s.toList
  let n : ℤ := cs.length
  let lo : ℤ := if a < 0 then max 0 (n + a) else min a n
  let hi : ℤ := if b < 0 then max 0 (n + b) else min b n
  String.mk ((cs.drop lo.toNat).take (hi.toNat - lo.toNat))

/-- Python `haystack.find(needle)`: index of the first occurrence of `needle`,
`-1` when absent. -/
def findSubAux : List Char → List Char → ℕ → Option ℕ
  | s, needle, i =>
    if needle.isPrefixOf s then some i
    else
      match s with
      | [] => none
      | _ :: t => findSubAux t needle (i + 1)

/-- Wrapper giving `find`'s `-1` convention. -/
def pyFind (haystack needle : String) : ℤ :=
  match findSubAux haystack.toList needle.toList 0 with
  | some i => (i : ℤ)
  | none => -1

/-- Embedding of `file_is_precondition` (common.py:319-323): true when the
string form of the path contains `"precond"`. -/
def file_is_precondition (file_path : String) : Bool :=
  strContains file_path "precond"

/-- Embedding of `get_blocksize` (common.py:258-278): drop a trailing
non-digit unit character if present. -/
def get_blocksize (blocksize_value : String) : String :=
  match blocksize_value.toList.getLast? with
  | some c => if ¬c.isDigit then blocksize_value.dropRight 1 else blocksize_value
  | none => blocksize_value

/-! ## Iodepth extraction (`src/post_processing/run_results/benchmarks/fio.py`) -/

/-- New-workloads segment scan of `FIO._get_iodepth` (fio.py:115-121): walk
the `/`-separated path segments keeping the last `iodepth-N` match, and stop
at the first `total_iodepth-N` segment (Python `break`).  Integer parsing of
the suffix after the marker raises `ValueError` when it fails. -/
def scanIodepthSegments : List String → ℤ → Except PyErr ℤ
  | [], acc => .ok acc
  | value :: rest, acc =>
    if strContains value "total_iodepth" then
      match pyInt (strDrop value 14) with
      | some n => .ok n
      | none => .error .valueError
    else if strContains value "iodepth" then
      match pyInt (strDrop value 8) with
      | some n => scanIodepthSegments rest n
      | none => .error .valueError
    else scanIodepthSegments rest acc

/-- Old-style fallback of `FIO._get_iodepth` (fio.py:124-133): locate
`iodepth` and `numjobs` in the whole path and parse the slice between them. -/
def oldStyleIodepth (logfile_name : String) (current : ℤ) : Except PyErr ℤ :=
  let iodepth_start_index := pyFind logfile_name "iodepth"
  let numjobs_start_index := pyFind logfile_name "numjobs"
  if iodepth_start_index ≠ -1 ∧ numjobs_start_index ≠ -1 then
    let iodepth_end_index := iodepth_start_index + 7
    match pyInt (pySlice logfile_name (iodepth_end_index + 1) (numjobs_start_index - 1)) with
    | some n => .ok n
    | none => .error .valueError
  else .ok current

/-- Embedding of `FIO._get_iodepth` (fio.py:107-138): parse the value from the
file, derive a value from the logfile path (new `total_iodepth-N` /
`iodepth-N` segments first, then the old `iodepth-NNN/numjobs-MMM` layout when
the segment scan produced 0), and return the maximum of the two. -/
def getIodepth (iodepth_value : String) (logfile_name : String) : Except PyErr ℤ :=
  match pyInt iodepth_value with
  | none => .error .valueError
  | some iodepth => do
    let logfile_iodepth ← scanIodepthSegments (splitSlash logfile_name) 0
    let logfile_iodepth ←
      if logfile_iodepth = 0 then oldStyleIodepth logfile_name 0
      else pure logfile_iodepth
    .ok (max iodepth logfile_iodepth)

/-- Embedding of the iodepth part of `BenchmarkResult.__init__`
(benchmark_result.py:31): `self._data['global options']['iodepth']` raises
`KeyError` when the file provides no iodepth field; otherwise
`FIO._get_iodepth` combines it with the path-encoded value. -/
def initIodepth (fileIodepth : Option String) (logfile_name : String) : Except PyErr ℤ :=
  match fileIodepth with
  | none => .error .keyError
  | some s => getIodepth s logfile_name

example : getIodepth "8" "/tmp/cbt/id-1234/total_iodepth-16/output.0" = .ok 16 := by decide
example : getIodepth "32" "/tmp/cbt/id-1234/total_iodepth-16/output.0" = .ok 32 := by decide
example : getIodepth "1"
    "/tmp/cbt/00000000/LibrbdFio/randwrite_1048576/iodepth-001/numjobs-001/output.0" = .ok 1 := by
  decide
example : getIodepth "4" "/tmp/cbt/plain/output.0" = .ok 4 := by decide
example : initIodepth none "/tmp/cbt/plain/output.0" = .error .keyError := by decide

/-! ## FIO result files (`src/post_processing/run_results/benchmarks/`) -/

/-- One `read`/`write` sub-section of a job entry in the fio JSON output,
with the fields `FIO._get_io_details` reads (fio.py:55-88). -/
structure JobData where
  io_bytes : ℤ
  bw_bytes : ℤ
  iops : ℝ
  total_ios : ℤ
  clat_mean : ℝ
  clat_stddev : ℝ

/-- One element of the `jobs` array: its dict-valued sub-sections (keyed by
operation name) and the flat `sys_cpu`/`usr_cpu` fields that
`FIOResource._parse` reads (fio_resource.py:54-55). -/
structure JobEntry where
  sections : List (String × JobData)
  sys_cpu : Option ℝ
  usr_cpu : Option ℝ

/-- The `global options` section of a fio output file.  `bs`, `numjobs`,
`runtime` and `rw` are always present in well-formed fio output; `iodepth`
and the mix percentages may be absent. -/
structure GlobalOptions where
  rw : String
  runtime : String
  numjobs : String
  bs : String
  iodepth : Option String
  rwmixread : Option String
  rwmixwrite : Option String

/-- Parsed JSON content of a fio result file. -/
structure FioFile where
  global_options : GlobalOptions
  jobs : List JobEntry

/-- Content of a discovered result file: zero bytes, unparsable JSON, or a
well-formed fio JSON document. -/
inductive FileContent where
  | empty : FileContent
  | malformed : FileContent
  | valid : FioFile → FileContent

/-- A discovered result file: its path (used for precondition and iodepth
checks) and its content. -/
structure SrcFile where
  path : String
  content : FileContent

/-- Embedding of `file_is_empty` (common.py:312-316): the file has size 0. -/
def file_is_empty (f : SrcFile) : Bool :=
  match f.content with
  | .empty => true
  | _ => false

/-- Embedding of `BenchmarkResult._read_results_from_file`
(benchmark_result.py:101-117): an empty file or a `json.JSONDecodeError` is
caught, a warning is logged, and the empty dict (`none` here) is returned. -/
def readResultsFromFile (f : SrcFile) : Option FioFile :=
  match f.content with
  | .empty => none
  | .malformed => none
  | .valid d => some d

/-- Association-list lookup with Python dict semantics (first binding wins;
a dict never has two bindings for a key). -/
def alookup {α : Type} (m : List (String × α)) (k : String) : Option α :=
  match m with
  | [] => none
  | (k', v) :: rest => if k' = k then some v else alookup rest k

/-- Association-list update with Python `dict.update` semantics for a single
key: replace in place, else append. -/
def aupsert {α : Type} (m : List (String × α)) (k : String) (v : α) : List (String × α) :=
  match m with
  | [] => [(k, v)]
  | (k', v') :: rest => if k' = k then (k, v) :: rest else (k', v') :: aupsert rest k v

/-- Embedding of `FIO._get_global_options` (fio.py:26-45): build the details
dict; when `rwmixread` is present and truthy, `rwmixwrite` is also read
(raising `KeyError` if absent). -/
def getGlobalOptions (g : GlobalOptions) : Except PyErr (List (String × String)) :=
  let base := [("number_of_jobs", g.numjobs), ("runtime_seconds", g.runtime),
    ("blocksize", get_blocksize g.bs)]
  match g.rwmixread with
  | some r =>
    if r = "" then .ok base
    else
      match g.rwmixwrite with
      | some w => .ok (base ++ [("percentage_reads", r), ("percentage_writes", w)])
      | none => .error .keyError
  | none => .ok base

/-- Embedding of `BenchmarkResult.operation` (benchmark_result.py:79-87):
the `rw` global option, prefixed with the mix percentages when the parsed
global details contain a truthy `percentage_reads`. -/
def operationOf (g : GlobalOptions) (details : List (String × String)) : String :=
  match alookup details "percentage_reads", alookup details "percentage_writes" with
  | some pr, some pw => if pr = "" then g.rw else pr ++ "_" ++ pw ++ "_" ++ g.rw
  | _, _ => g.rw

/-- The normalized per-file IO record built by `FIO._get_io_details` and
recombined by `RBDFIO._sum_io_details` (string-valued in the Python dicts,
numeric here). -/
structure IoDetails where
  io_bytes : ℝ
  bandwidth_bytes : ℝ
  iops : ℝ
  latency : ℝ
  std_deviation : ℝ
  total_ios : ℤ

/-- The sub-sections `FIO._get_io_details` accumulates, in iteration order:
for each entry of `jobs`, its items whose key is `read` or `write` and whose
value is a dict (fio.py:73-75). -/
def sectionsOfInterest (all_jobs : List JobEntry) : List (String × JobData) :=
  (all_jobs.map (fun e => e.sections.filter (fun s => s.1 == "read" || s.1 == "write"))).flatten

/-- Embedding of `FIO._get_io_details` (fio.py:48-105): sum `io_bytes`,
`bw_bytes`, `iops` and `total_ios` over the read/write sub-sections, then
combine their latency means and standard deviations with the numeric
combinators weighted by each side's `total_ios`. -/
noncomputable def getIoDetails (all_jobs : List JobEntry) : Except PyErr IoDetails := do
  let sections := sectionsOfInterest all_jobs
  let io_bytes : ℤ := (sections.map (fun s => s.2.io_bytes)).sum
  let bw_bytes : ℤ := (sections.map (fun s => s.2.bw_bytes)).sum
  let io_operations_second : ℝ := (sections.map (fun s => s.2.iops)).sum
  let latencies : List ℝ := sections.map (fun s => s.2.clat_mean)
  let operations : List ℤ := sections.map (fun s => s.2.total_ios)
  let std_deviations : List ℝ := sections.map (fun s => s.2.clat_stddev)
  let total_ios : ℤ := (sections.map (fun s => s.2.total_ios)).sum
  let combined_mean_latency ← sum_mean_values latencies operations total_ios
  let latency_standard_deviation ←
    sum_standard_deviation_values std_deviations operations latencies total_ios
      combined_mean_latency
  .ok ⟨(io_bytes : ℝ), (bw_bytes : ℝ), io_operations_second, combined_mean_latency,
    latency_standard_deviation, total_ios⟩

/-- The per-file parse result of constructing `FIO(file_path)`
(benchmark_result.py:26-35 plus the `blocksize`/`operation` properties). -/
structure ParsedFio where
  operation : String
  blocksize : String
  iodepth : String
  global_details : List (String × String)
  io : IoDetails

/-- Embedding of `FIO(file_path)` construction (benchmark_result.py:26-35):
read the file (empty dict on empty/malformed content, whose `global options`
access then raises `KeyError`), then parse global options, iodepth and the
IO details in that order. -/
noncomputable def parseFio (f : SrcFile) : Except PyErr ParsedFio :=
  match readResultsFromFile f with
  | none => .error .keyError
  | some d => do
    let details ← getGlobalOptions d.global_options
    let iod ← initIodepth d.global_options.iodepth f.path
    let io ← getIoDetails d.jobs
    .ok ⟨operationOf d.global_options details, get_blocksize d.global_options.bs,
      toString iod, details, io⟩

/-! ## Resource readers (`resources/`, `run_result/collectl.py`) -/

/-- The per-file resource record (`source`, `cpu`, `memory` keys of the leaf
dict). -/
structure ResourceStat where
  source : String
  cpu : ℝ
  memory : ℝ

/-- Embedding of `FIOResource.get` for a fio result file
(resource_result.py:86-95 with `FIOResource._parse`, fio_resource.py:41-60):
read the same file (empty dict on empty/malformed), then read
`data['jobs'][0]['sys_cpu']` and `usr_cpu` — raising `KeyError` on the empty
dict or missing fields and `IndexError` on an empty `jobs` array — and
return cpu = sys + usr with memory fixed at 0. -/
def fioResourceGet (f : SrcFile) : Except PyErr ResourceStat :=
  match readResultsFromFile f with
  | none => .error .keyError
  | some d =>
    match d.jobs with
    | [] => .error .indexError
    | e :: _ =>
      match e.sys_cpu, e.usr_cpu with
      | some s, some u => .ok ⟨"fio", s + u, 0⟩
      | _, _ => .error .keyError

/-- Embedding of `Collectl._get_resource_output_file_from_file_path`
(run_result/collectl.py:21-35), taking the glob result as input: warn when
more than one `*.cpu` file matched, and return `resource_files[0]` — which
raises `IndexError` when nothing matched.  The first component records
whether the multiple-match warning was logged. -/
def collectlGetResourceOutputFile (resource_files : List String) :
    Bool × Except PyErr String :=
  (decide (resource_files.length > 1),
    match resource_files with
    | [] => .error .indexError
    | f :: _ => .ok f)

/-! ## Run aggregation (`src/post_processing/run_results/run_result.py`,
`rbdfio.py`) -/

/-- One leaf of the canonical map: the new file's global details, the
(possibly recombined) IO details, and the latest file's resource figures. -/
structure Leaf where
  global_details : List (String × String)
  io : IoDetails
  source : String
  cpu : ℝ
  memory : ℝ

/-- The nested canonical map `operation → blocksize → iodepth → leaf`
(`RunResult._processed_data`). -/
abbrev RunMap := List (String × List (String × List (String × Leaf)))

/-- The triple-`get` chain of `RunResult._convert_file`
(run_result.py:133-135).  The Python code tests dict truthiness; the inner
dicts are never empty when present, so presence coincides with `some`. -/
def lookup3 (st : RunMap) (operation blocksize iodepth : String) : Option Leaf :=
  (alookup st operation).bind fun b => (alookup b blocksize).bind fun i => alookup i iodepth

/-- The storage branch of `RunResult._convert_file` (run_result.py:149-155):
update at the deepest level that already exists, inserting fresh nested
dicts otherwise. -/
def store3 (st : RunMap) (operation blocksize iodepth : String) (leaf : Leaf) : RunMap :=
  match alookup st operation with
  | some bmap =>
    match alookup bmap blocksize with
    | some imap => aupsert st operation (aupsert bmap blocksize (aupsert imap iodepth leaf))
    | none => aupsert st operation (aupsert bmap blocksize [(iodepth, leaf)])
  | none => aupsert st operation [(blocksize, [(iodepth, leaf)])]

/-- Embedding of `RBDFIO._sum_io_details` (rbdfio.py:54-95): sum `io_bytes`,
`iops`, `bandwidth_bytes` and `total_ios` directly, and recombine the
latency mean and standard deviation with the numeric combinators weighted by
each side's `total_ios`. -/
noncomputable def sumIoDetails (existing_values new_values : IoDetails) :
    Except PyErr IoDetails := do
  let combined_total : ℤ := existing_values.total_ios + new_values.total_ios
  let latencies : List ℝ := [existing_values.latency, new_values.latency]
  let operations : List ℤ := [existing_values.total_ios, new_values.total_ios]
  let std_deviations : List ℝ := [existing_values.std_deviation, new_values.std_deviation]
  let combined_latency ← sum_mean_values latencies operations combined_total
  let combined_std_dev ←
    sum_standard_deviation_values std_deviations operations latencies combined_total
      combined_latency
  .ok ⟨existing_values.io_bytes + new_values.io_bytes,
    existing_values.bandwidth_bytes + new_values.bandwidth_bytes,
    existing_values.iops + new_values.iops,
    combined_latency, combined_std_dev, combined_total⟩

/-- Embedding of `RunResult._convert_file` (run_result.py:107-156) after the
per-file readers ran: if the canonical map already holds a leaf at
`(operation, blocksize, iodepth)`, recombine it with the new values via
`RBDFIO._sum_io_details`; otherwise take the new values directly.  The
stored leaf gets the new file's global details and the resource reader's
figures (requested only after the recombination, matching the call order). -/
noncomputable def convertFile (st : RunMap) (operation blocksize iodepth : String)
    (global_details : List (String × String)) (newIo : IoDetails)
    (resource : Except PyErr ResourceStat) : Except PyErr RunMap := do
  let io_details ←
    match lookup3 st operation blocksize iodepth with
    | some leaf => sumIoDetails leaf.io newIo
    | none => .ok newIo
  let res ← resource
  .ok (store3 st operation blocksize iodepth
    ⟨global_details, io_details, res.source, res.cpu, res.memory⟩)

/-- One `_convert_file` invocation of the run loop (run_result.py:118-121 and
146): parse the file with the FIO reader, then fold it into the canonical
map, with the FIO resource reader supplying the resource figures. -/
noncomputable def convertOne (st : RunMap) (f : SrcFile) : Except PyErr RunMap := do
  let p ← parseFio f
  convertFile st p.operation p.blocksize p.iodepth p.global_details p.io (fioResourceGet f)

/-- Python `list.remove(x)` on the file list: drop the first file with an
equal path. -/
def eraseByPath : List SrcFile → String → List SrcFile
  | [], _ => []
  | f :: rest, p => if f.path = p then rest else f :: eraseByPath rest p

/-- Outcome of `RunResult._process_test_run_files`: the (possibly mutated)
file list, the canonical map, and the per-file events in order — files
handed to `_convert_file`, files skipped with the empty-file warning, and
files skipped with the precondition warning. -/
structure ProcOutcome where
  files : List SrcFile
  data : RunMap
  converted : List String
  warned_empty : List String
  warned_precondition : List String

/-- Embedding of the `for file_path in self._files` loop of
`RunResult._process_test_run_files` (run_result.py:90-105) with CPython's
list-iterator semantics: the iterator advances an index into the live list,
and the precondition branch mutates that list via `self._files.remove(...)`.
The fuel is an upper bound on the number of iterations (the index grows by
one per iteration and the list never grows). -/
noncomputable def processLoop : ℕ → ℕ → List SrcFile → RunMap → List String → List String →
    List String → Except PyErr ProcOutcome
  | 0, _, files, st, conv, wEmpty, wPrecond => .ok ⟨files, st, conv, wEmpty, wPrecond⟩
  | fuel + 1, i, files, st, conv, wEmpty, wPrecond =>
    match files.get? i with
    | none => .ok ⟨files, st, conv, wEmpty, wPrecond⟩
    | some f =>
      if file_is_empty f then
        processLoop fuel (i + 1) files st conv (wEmpty ++ [f.path]) wPrecond
      else if file_is_precondition f.path then
        processLoop fuel (i + 1) (eraseByPath files f.path) st conv wEmpty
          (wPrecond ++ [f.path])
      else do
        let st' ← convertOne st f
        processLoop fuel (i + 1) files st' (conv ++ [f.path]) wEmpty wPrecond

/-- Embedding of `RunResult._process_test_run_files` (run_result.py:90-105). -/
noncomputable def processTestRunFiles (files : List SrcFile) (st : RunMap) :
    Except PyErr ProcOutcome :=
  processLoop (files.length + 1) 0 files st [] [] []

/-- The mutable state of a `RunResult` instance (run_result.py:33-38). -/
structure RunResultState where
  files : List SrcFile
  has_been_processed : Bool
  processed_data : RunMap

/-- Embedding of `RunResult.process` (run_result.py:66-78): run the file
loop when any files were discovered (warn otherwise), then set
`_has_been_processed` — reached only when no exception propagated. -/
noncomputable def runResultProcess (o : RunResultState) : Except PyErr RunResultState :=
  if o.files.length > 0 then do
    let out ← processTestRunFiles o.files o.processed_data
    .ok ⟨out.files, true, out.data⟩
  else .ok ⟨o.files, true, o.processed_data⟩

/-- Embedding of `RunResult.get` (run_result.py:80-88): process on first
call (guarded by `_has_been_processed`), then return the processed data.
The returned pair is (returned map, object state after the call). -/
noncomputable def runResultGet (o : RunResultState) :
    Except PyErr (RunMap × RunResultState) :=
  if o.has_been_processed then .ok (o.processed_data, o)
  else do
    let o' ← runResultProcess o
    .ok (o'.processed_data, o')

/-! ## Throughput metric choice (`common.py`) -/

/-- The fields of the intermediate file that
`get_latency_throughput_from_file` reads, after numeric parsing: the
run-wide blocksize in bytes (a nonnegative integer in the file) and the
four summary figures. -/
structure IntermediateData where
  blocksize : ℕ
  maximum_iops : ℝ
  maximum_bandwidth : ℝ
  latency_at_max_iops : ℝ
  latency_at_max_bandwidth : ℝ

/-- The choice `get_latency_throughput_from_file` reports. -/
structure ThroughputChoice where
  throughput_type : String
  max_throughput : ℝ
  latency : ℝ

/-- Embedding of the metric selection of `get_latency_throughput_from_file`
(common.py:98-130): `blocksize = int(int(bs) / 1024)`; when that is at least
64 (i.e. at least 65536 bytes) report the maximum bandwidth divided by
1000*1000 as MB/s with its latency, otherwise report the maximum IOPS with
its latency. -/
noncomputable def get_latency_throughput (d : IntermediateData) : ThroughputChoice :=
  let blocksize : ℕ := d.blocksize / 1024
  if 64 ≤ blocksize then
    ⟨"MB/s", d.maximum_bandwidth / (1000 * 1000), d.latency_at_max_bandwidth⟩
  else
    ⟨"IOps", d.maximum_iops, d.latency_at_max_iops⟩

/-! ## Helper lemmas -/

theorem alookup_aupsert {α : Type} (m : List (String × α)) (k : String) (v : α) :
    alookup (aupsert m k v) k = some v := by
  induction m with
  | nil => simp [aupsert, alookup]
  | cons kv rest ih =>
    by_cases h : kv.1 = k
    · simp [aupsert, h, alookup]
    · simp [aupsert, h, alookup, ih]

theorem lookup3_store3 (st : RunMap) (operation blocksize iodepth : String) (leaf : Leaf) :
    lookup3 (store3 st operation blocksize iodepth leaf) operation blocksize iodepth =
      some leaf := by
  unfold store3 lookup3
  cases h1 : alookup st operation with
  | none => simp [alookup_aupsert, alookup]
  | some bmap =>
    cases h2 : alookup bmap blocksize with
    | none => simp only [h2]; simp [alookup_aupsert, alookup]
    | some imap => simp only [h2]; simp [alookup_aupsert]

theorem runResultProcess_sets_flag (o o' : RunResultState)
    (h : runResultProcess o = .ok o') : o'.has_been_processed = true := by
  unfold runResultProcess at h
  by_cases hl : o.files.length > 0
  · rw [if_pos hl] at h
    cases hp : processTestRunFiles o.files o.processed_data with
    | error e => rw [hp] at h; cases h
    | ok out =>
      rw [hp] at h
      cases h
      rfl
  · rw [if_neg hl] at h
    cases h
    rfl

/-! ## Claim theorems -/

/-- C5: for every run artifact the reported throughput metric is chosen by
blocksize with an inclusive boundary: blocksize at least 65536 bytes reports
the maximum bandwidth divided by 1,000,000 as MB/s (with its latency), and a
smaller blocksize reports the maximum IOPS. -/
theorem c5_throughput_metric_choice (d : IntermediateData) :
    (65536 ≤ d.blocksize →
      (get_latency_throughput d).throughput_type = "MB/s" ∧
      (get_latency_throughput d).max_throughput = d.maximum_bandwidth / 1000000 ∧
      (get_latency_throughput d).latency = d.latency_at_max_bandwidth) ∧
    (d.blocksize < 65536 →
      (get_latency_throughput d).throughput_type = "IOps" ∧
      (get_latency_throughput d).max_throughput = d.maximum_iops ∧
      (get_latency_throughput d).latency = d.latency_at_max_iops) := by
  unfold get_latency_throughput
  constructor
  · intro h
    have h64 : 64 ≤ d.blocksize / 1024 := by omega
    rw [if_pos h64]
    refine ⟨rfl, ?_, rfl⟩
    norm_num
  · intro h
    have h64 : ¬64 ≤ d.blocksize / 1024 := by omega
    rw [if_neg h64]
    exact ⟨rfl, rfl, rfl⟩

/-- C5 witness: blocksize 4096 selects IOPS, blocksize exactly 65536 selects
MB/s with the decimal division. -/
theorem c5_throughput_metric_choice_witness :
    ((get_latency_throughput ⟨65536, 10, 20, 30, 40⟩).throughput_type = "MB/s" ∧
      (get_latency_throughput ⟨65536, 10, 20, 30, 40⟩).max_throughput = (20 : ℝ) / 1000000 ∧
      (get_latency_throughput ⟨65536, 10, 20, 30, 40⟩).latency = (40 : ℝ)) ∧
    ((get_latency_throughput ⟨4096, 10, 20, 30, 40⟩).throughput_type = "IOps" ∧
      (get_latency_throughput ⟨4096, 10, 20, 30, 40⟩).max_throughput = (10 : ℝ) ∧
      (get_latency_throughput ⟨4096, 10, 20, 30, 40⟩).latency = (30 : ℝ)) :=
  ⟨(c5_throughput_metric_choice ⟨65536, 10, 20, 30, 40⟩).1 (by decide),
    (c5_throughput_metric_choice ⟨4096, 10, 20, 30, 40⟩).2 (by decide)⟩

/-- C6: the reported iodepth is the maximum of the value found inside the
file and the value encoded in the file's directory path, for both the
`total_iodepth-N` layout and the `iodepth-N/numjobs-M` layout; a file whose
global options provide no iodepth fails with the missing-iodepth error
before any path is consulted. -/
theorem c6_iodepth_max_of_file_and_path (s : String) (v : ℤ) (h : pyInt s = some v) :
    getIodepth s "/tmp/cbt/id-1234/total_iodepth-16/output.0" = .ok (max v 16) ∧
    getIodepth s "/tmp/cbt/00000000/LibrbdFio/randwrite_1048576/iodepth-8/numjobs-2/output.0" =
      .ok (max v 8) ∧
    (∀ p : String, initIodepth none p = .error .keyError) := by
  refine ⟨?_, ?_, fun p => rfl⟩ <;> (unfold getIodepth; rw [h]; rfl)

/-- C6 witness: a file value of 4 against a path encoding 16 reports 16, and
against a path encoding 8 reports 8. -/
theorem c6_iodepth_max_of_file_and_path_witness :
    pyInt "4" = some 4 ∧
    getIodepth "4" "/tmp/cbt/id-1234/total_iodepth-16/output.0" = .ok 16 ∧
    getIodepth "4" "/tmp/cbt/00000000/LibrbdFio/randwrite_1048576/iodepth-8/numjobs-2/output.0" =
      .ok 8 ∧
    initIodepth none "/tmp/cbt/plain/output.0" = .error .keyError := by
  have h := c6_iodepth_max_of_file_and_path "4" 4 (by decide)
  exact ⟨by decide, h.1, h.2.1, h.2.2 "/tmp/cbt/plain/output.0"⟩

theorem weightedStddevAcc_init (l : List (ℝ × ℤ × ℝ)) (a : ℝ) :
    l.foldl (fun acc p => acc + ((p.2.1 : ℝ) - 1) * p.1 * p.1 + (p.2.1 : ℝ) * (p.2.2 * p.2.2)) a =
      a + l.foldl
        (fun acc p => acc + ((p.2.1 : ℝ) - 1) * p.1 * p.1 + (p.2.1 : ℝ) * (p.2.2 * p.2.2)) 0 := by
  induction l generalizing a with
  | nil => simp
  | cons x t ih =>
    simp only [List.foldl]
    rw [ih (a + _ + _), ih (0 + _ + _)]
    ring

theorem weightedStddevAcc_eq_sum (stds : List ℝ) (ops : List ℤ) (lats : List ℝ)
    (h1 : stds.length = ops.length) (h2 : stds.length = lats.length) :
    weightedStddevAcc stds ops lats =
      ∑ i ∈ Finset.range stds.length,
        ((((ops.getD i 0 : ℤ) : ℝ) - 1) * stds.getD i 0 ^ 2 +
          ((ops.getD i 0 : ℤ) : ℝ) * lats.getD i 0 ^ 2) := by
  induction stds generalizing ops lats with
  | nil => simp [weightedStddevAcc]
  | cons σ st ih =>
    cases ops with
    | nil => simp at h1
    | cons w ot =>
      cases lats with
      | nil => simp at h2
      | cons μ lt =>
        have h1' : st.length = ot.length := by simpa using h1
        have h2' : st.length = lt.length := by simpa using h2
        have hstep : weightedStddevAcc (σ :: st) (w :: ot) (μ :: lt) =
            (0 + ((w : ℝ) - 1) * σ * σ + (w : ℝ) * (μ * μ)) + weightedStddevAcc st ot lt :=
          weightedStddevAcc_init (st.zip (ot.zip lt))
            (0 + ((w : ℝ) - 1) * σ * σ + (w : ℝ) * (μ * μ))
        rw [hstep, ih ot lt h1' h2', List.length_cons, Finset.sum_range_succ']
        simp only [List.getD_cons_succ, List.getD_cons_zero]
        ring

theorem stddev_example_eval :
    sum_standard_deviation_values [1, 1] [100, 100] [5, 5] 200 5 =
      .ok (Real.sqrt (198 / 199)) := by
  unfold sum_standard_deviation_values
  rw [if_pos (by simp)]
  rw [if_neg (by decide)]
  have hacc : weightedStddevAcc [1, 1] [100, 100] [5, 5] = 5198 := by
    simp [weightedStddevAcc]
    norm_num
  have hrad : (weightedStddevAcc [1, 1] [100, 100] [5, 5] -
      ((200 : ℤ) : ℝ) * 5 * 5) / (((200 : ℤ) : ℝ) - 1) = 198 / 199 := by
    rw [hacc]
    norm_num
  rw [if_neg (by rw [hrad]; norm_num), hrad]

/-- C2 counterexample: the two shards of weight 100, mean 5.0, stddev 1.0
combine to exactly `sqrt(198/199) ≈ 0.99749`, which differs from 1.0 by more
than one part in a million — a genuine deviation of the pooling formula, not
a floating-point tolerance. -/
theorem c2_example_not_within_float_tolerance :
    sum_standard_deviation_values [1, 1] [100, 100] [5, 5] 200 5 =
      .ok (Real.sqrt (198 / 199)) ∧
    1 / 1000000 < |Real.sqrt (198 / 199) - 1| := by
  refine ⟨stddev_example_eval, ?_⟩
  have hlt : Real.sqrt (198 / 199) < 999999 / 1000000 := by
    rw [Real.sqrt_lt' (by norm_num)]
    norm_num
  have hnn : (0 : ℝ) ≤ Real.sqrt (198 / 199) := Real.sqrt_nonneg _
  rw [abs_of_nonpos (by nlinarith)]
  nlinarith

/-- C2 amended: the combined standard deviation is
`sqrt((Sum_i [(w_i - 1)*sigma_i^2 + w_i*mu_i^2] - totalWeight*combinedMean^2)
/ (totalWeight - 1))` for aligned inputs with total weight at least 2 and a
nonnegative numerator; in particular two shards each of weight 100, mean 5.0
and stddev 1.0 combine to `sqrt(198/199)`, within 0.003 of 1.0 (though not
within floating tolerance). -/
theorem c2_pooled_stddev_formula (std_deviations : List ℝ) (operations : List ℤ)
    (latencies : List ℝ) (total_ios : ℤ) (combined_latency : ℝ)
    (h1 : std_deviations.length = operations.length)
    (h2 : std_deviations.length = latencies.length)
    (htot : 2 ≤ total_ios)
    (hrad : 0 ≤ weightedStddevAcc std_deviations operations latencies -
      (total_ios : ℝ) * combined_latency * combined_latency) :
    sum_standard_deviation_values std_deviations operations latencies total_ios
        combined_latency =
      .ok (Real.sqrt (((∑ i ∈ Finset.range std_deviations.length,
          ((((operations.getD i 0 : ℤ) : ℝ) - 1) * std_deviations.getD i 0 ^ 2 +
            ((operations.getD i 0 : ℤ) : ℝ) * latencies.getD i 0 ^ 2)) -
          (total_ios : ℝ) * combined_latency ^ 2) / ((total_ios : ℝ) - 1))) ∧
    sum_standard_deviation_values [1, 1] [100, 100] [5, 5] 200 5 =
      .ok (Real.sqrt (198 / 199)) ∧
    |Real.sqrt (198 / 199) - 1| ≤ 3 / 1000 := by
  refine ⟨?_, stddev_example_eval, ?_⟩
  · unfold sum_standard_deviation_values
    rw [if_pos ⟨le_of_eq h1, le_of_eq h2⟩]
    rw [if_neg (by omega)]
    have hden : (0 : ℝ) < (total_ios : ℝ) - 1 := by
      have : (2 : ℝ) ≤ (total_ios : ℝ) := by exact_mod_cast htot
      linarith
    rw [if_neg (not_lt.mpr (div_nonneg hrad (le_of_lt hden)))]
    rw [weightedStddevAcc_eq_sum std_deviations operations latencies h1 h2,
      pow_two combined_latency,
      ← mul_assoc ((total_ios : ℤ) : ℝ) combined_latency combined_latency]
  · have hle : Real.sqrt (198 / 199) ≤ 1 := Real.sqrt_le_one.mpr (by norm_num)
    have hge : (997 : ℝ) / 1000 ≤ Real.sqrt (198 / 199) := by
      rw [Real.le_sqrt' (by norm_num)]
      norm_num
    rw [abs_of_nonpos (by linarith)]
    linarith

/-- C2 witness: the amended theorem applied to the one-shard input
`sigma = 3`, `w = 5`, `mu = 7` with combined mean 7, giving the closed
example facts. -/
theorem c2_pooled_stddev_formula_witness :
    sum_standard_deviation_values [1, 1] [100, 100] [5, 5] 200 5 =
      .ok (Real.sqrt (198 / 199)) ∧
    |Real.sqrt (198 / 199) - 1| ≤ 3 / 1000 := by
  have h := c2_pooled_stddev_formula [3] [5] [7] 5 7 rfl rfl (by decide)
    (by simp [weightedStddevAcc]; norm_num)
  exact ⟨h.2.1, h.2.2⟩

/-- C1: when a second shard lands on an (operation, blocksize, iodepth) key
already present in the canonical map, the recombined leaf sums the two
sides' `total_ios`, `io_bytes`, `bandwidth_bytes` and `iops` directly, and
its latency and standard deviation are the results of the weighted numeric
combinators applied with each side's `total_ios` as weight. -/
theorem c1_recombine_existing_key (st : RunMap) (operation blocksize iodepth : String)
    (ex : Leaf) (global_details : List (String × String)) (newIo : IoDetails)
    (res : ResourceStat) (L S : ℝ)
    (hex : lookup3 st operation blocksize iodepth = some ex)
    (hmean : sum_mean_values [ex.io.latency, newIo.latency]
      [ex.io.total_ios, newIo.total_ios] (ex.io.total_ios + newIo.total_ios) = .ok L)
    (hstd : sum_standard_deviation_values [ex.io.std_deviation, newIo.std_deviation]
      [ex.io.total_ios, newIo.total_ios] [ex.io.latency, newIo.latency]
      (ex.io.total_ios + newIo.total_ios) L = .ok S) :
    ∃ st', convertFile st operation blocksize iodepth global_details newIo (.ok res) =
        .ok st' ∧
      lookup3 st' operation blocksize iodepth = some
        ⟨global_details,
          ⟨ex.io.io_bytes + newIo.io_bytes, ex.io.bandwidth_bytes + newIo.bandwidth_bytes,
            ex.io.iops + newIo.iops, L, S, ex.io.total_ios + newIo.total_ios⟩,
          res.source, res.cpu, res.memory⟩ := by
  have hsum : sumIoDetails ex.io newIo =
      .ok ⟨ex.io.io_bytes + newIo.io_bytes, ex.io.bandwidth_bytes + newIo.bandwidth_bytes,
        ex.io.iops + newIo.iops, L, S, ex.io.total_ios + newIo.total_ios⟩ := by
    unfold sumIoDetails
    dsimp only
    rw [hmean]
    show sum_standard_deviation_values [ex.io.std_deviation, newIo.std_deviation]
      [ex.io.total_ios, newIo.total_ios] [ex.io.latency, newIo.latency]
      (ex.io.total_ios + newIo.total_ios) L >>= _ = _
    rw [hstd]
    rfl
  refine ⟨store3 st operation blocksize iodepth
    ⟨global_details,
      ⟨ex.io.io_bytes + newIo.io_bytes, ex.io.bandwidth_bytes + newIo.bandwidth_bytes,
        ex.io.iops + newIo.iops, L, S, ex.io.total_ios + newIo.total_ios⟩,
      res.source, res.cpu, res.memory⟩, ?_, ?_⟩
  · unfold convertFile
    dsimp only
    rw [hex]
    show sumIoDetails ex.io newIo >>= _ = _
    rw [hsum]
    rfl
  · exact lookup3_store3 st operation blocksize iodepth _

/-- C1 witness: two shards on the key `(read, 4096, 16)` with 244 samples
each recombine to a leaf with 488 total I/Os, summed bytes/iops, and the
combinator results for latency and standard deviation. -/
theorem c1_recombine_existing_key_witness :
    ((244 : ℤ) + 244 = 488) ∧
    (∃ st', convertFile
        [("read", [("4096", [("16",
          ⟨[("blocksize", "4096")], ⟨999424, 4096, 100, 100, 10, 244⟩, "fio", 2, 0⟩)])])]
        "read" "4096" "16" [("blocksize", "4096")] ⟨576, 4096, 100, 100, 10, 244⟩
        (.ok ⟨"fio", 3, 0⟩) = .ok st' ∧
      lookup3 st' "read" "4096" "16" = some
        ⟨[("blocksize", "4096")],
          ⟨(999424 : ℝ) + 576, (4096 : ℝ) + 4096, (100 : ℝ) + 100, 100,
            Real.sqrt (48600 / 487), (244 : ℤ) + 244⟩,
          "fio", 3, 0⟩) := by
  constructor
  · decide
  · refine c1_recombine_existing_key _ "read" "4096" "16"
      ⟨[("blocksize", "4096")], ⟨999424, 4096, 100, 100, 10, 244⟩, "fio", 2, 0⟩
      [("blocksize", "4096")] ⟨576, 4096, 100, 100, 10, 244⟩ ⟨"fio", 3, 0⟩ 100
      (Real.sqrt (48600 / 487)) rfl ?_ ?_
    · unfold sum_mean_values
      rw [if_pos (by simp)]
      rw [if_neg (by decide)]
      have hacc : weightedLatencyAcc [(100 : ℝ), 100] [(244 : ℤ), 244] = 48800 := by
        simp [weightedLatencyAcc]
        norm_num
      rw [hacc]
      norm_num
    · unfold sum_standard_deviation_values
      rw [if_pos (by simp)]
      rw [if_neg (by decide)]
      have hacc : weightedStddevAcc [(10 : ℝ), 10] [(244 : ℤ), 244] [(100 : ℝ), 100] =
          4928600 := by
        simp [weightedStddevAcc]
        norm_num
      have hrad : (weightedStddevAcc [(10 : ℝ), 10] [(244 : ℤ), 244] [(100 : ℝ), 100] -
          (((244 : ℤ) + 244 : ℤ) : ℝ) * 100 * 100) / ((((244 : ℤ) + 244 : ℤ) : ℝ) - 1) =
          48600 / 487 := by
        rw [hacc]
        norm_num
      rw [if_neg (by rw [hrad]; norm_num), hrad]

/-- A minimal well-formed fio result file used in concrete run-level
evaluations. -/
def sampleFio : FioFile :=
  ⟨⟨"read", "90", "1", "4096", some "16", none, none⟩,
    [⟨[("read", ⟨4096, 4096, 1, 4, 100, 10⟩)], some 1, some 2⟩]⟩

/-- C3: evaluating the run loop at a list holding a precondition file
directly followed by an ordinary file shows the bug — the precondition file
is warned about and removed from the live list while the iterator is
walking it, so the iterator skips the following file: it is neither
converted nor warned about, yet it remains in the file list.  The claim
(and the spec's intent) that every non-skipped file is converted is right;
the mutation of `self._files` during iteration is the slip. -/
theorem c3_file_after_precondition_is_silently_dropped :
    processTestRunFiles
      [⟨"/tmp/run/precond_out.0", .valid sampleFio⟩, ⟨"/tmp/run/out.0", .valid sampleFio⟩]
      [] =
      .ok ⟨[⟨"/tmp/run/out.0", .valid sampleFio⟩], [], [], [], ["/tmp/run/precond_out.0"]⟩ :=
  rfl

/-- C4 counterexample: a run whose first file holds malformed JSON aborts
with the propagated `KeyError` instead of skipping that file and processing
the rest — the second, well-formed file is never reached. -/
theorem c4_malformed_json_aborts_run :
    processTestRunFiles
      [⟨"/tmp/run/out.0", .malformed⟩, ⟨"/tmp/run/out.1", .valid sampleFio⟩] [] =
      .error .keyError :=
  rfl

/-- C4 amended: reading a malformed file is caught inside
`_read_results_from_file`, which warns and returns the empty dict; but the
subsequent `'global options'` access in `BenchmarkResult.__init__` raises
`KeyError`, which propagates out of the per-file conversion and aborts the
processing of the remaining files of the run. -/
theorem c4_malformed_caught_then_keyerror (f : SrcFile) (rest : List SrcFile) (st : RunMap)
    (hm : f.content = .malformed) (hp : file_is_precondition f.path = false) :
    readResultsFromFile f = none ∧
    convertOne st f = .error .keyError ∧
    processTestRunFiles (f :: rest) st = .error .keyError := by
  have hread : readResultsFromFile f = none := by
    unfold readResultsFromFile
    rw [hm]
  have hconv : convertOne st f = .error .keyError := by
    unfold convertOne parseFio
    rw [hread]
    rfl
  have hempty : file_is_empty f = false := by
    unfold file_is_empty
    rw [hm]
  refine ⟨hread, hconv, ?_⟩
  unfold processTestRunFiles
  simp only [List.length_cons, processLoop, List.get?, hempty, hp, Bool.false_eq_true,
    if_false, hconv]
  rfl

/-- C4 witness: the amended theorem applied to a concrete malformed file
followed by a well-formed one. -/
theorem c4_malformed_caught_then_keyerror_witness :
    readResultsFromFile ⟨"/tmp/run/out.0", .malformed⟩ = none ∧
    convertOne [] ⟨"/tmp/run/out.0", .malformed⟩ = .error .keyError ∧
    processTestRunFiles
      [⟨"/tmp/run/out.0", .malformed⟩, ⟨"/tmp/run/out.1", .valid sampleFio⟩] [] =
      .error .keyError :=
  c4_malformed_caught_then_keyerror ⟨"/tmp/run/out.0", .malformed⟩
    [⟨"/tmp/run/out.1", .valid sampleFio⟩] [] rfl rfl

/-- C7 counterexample: at total weight 0 the standard-deviation combinator
does not fail — with no shards it silently returns the numeric value 0
(Python computes `sqrt(0 / -1) = -0.0`). -/
theorem c7_total_weight_zero_returns_numeric :
    sum_standard_deviation_values [] [] [] 0 5 = .ok 0 := by
  unfold sum_standard_deviation_values
  rw [if_pos (by simp)]
  rw [if_neg (by decide)]
  have hrad : (weightedStddevAcc [] [] [] - ((0 : ℤ) : ℝ) * 5 * 5) / (((0 : ℤ) : ℝ) - 1) = 0 := by
    simp [weightedStddevAcc]
  rw [if_neg (by rw [hrad]; exact lt_irrefl 0), hrad, Real.sqrt_zero]

/-- C7 amended: the combinator fails for total weight 1 (the Python division
by `total_ios - 1` raises `ZeroDivisionError`), but for total weight 0 it is
not guarded: with no shards it silently returns the numeric value 0. -/
theorem c7_degenerate_weight_behaviour (std_deviations : List ℝ) (operations : List ℤ)
    (latencies : List ℝ) (combined_latency : ℝ)
    (h1 : std_deviations.length ≤ operations.length)
    (h2 : std_deviations.length ≤ latencies.length) :
    sum_standard_deviation_values std_deviations operations latencies 1 combined_latency =
      .error .zeroDivisionError ∧
    sum_standard_deviation_values [] [] [] 0 combined_latency = .ok 0 := by
  constructor
  · unfold sum_standard_deviation_values
    rw [if_pos ⟨h1, h2⟩, if_pos rfl]
  · unfold sum_standard_deviation_values
    rw [if_pos (by simp)]
    rw [if_neg (by decide)]
    have hrad : (weightedStddevAcc [] [] [] -
        ((0 : ℤ) : ℝ) * combined_latency * combined_latency) / (((0 : ℤ) : ℝ) - 1) = 0 := by
      simp [weightedStddevAcc]
    rw [if_neg (by rw [hrad]; exact lt_irrefl 0), hrad, Real.sqrt_zero]

/-- C7 witness: a concrete one-shard input with total weight 1 fails with the
division error, and the empty input with total weight 0 returns 0. -/
theorem c7_degenerate_weight_behaviour_witness :
    sum_standard_deviation_values [2] [1] [3] 1 3 = .error .zeroDivisionError ∧
    sum_standard_deviation_values [] [] [] 0 3 = .ok 0 :=
  c7_degenerate_weight_behaviour [2] [1] [3] 3 (by decide) (by decide)

/-- C9 counterexample: with no located resource data the acquisition fails
instead of producing a zero-valued ResourceStat — the collectl file search
raises `IndexError` on zero matches, and the fio resource reader raises
`KeyError` when the benchmark file yields no data. -/
theorem c9_missing_resource_data_fails :
    collectlGetResourceOutputFile [] = (false, .error .indexError) ∧
    fioResourceGet ⟨"/tmp/run/output.0", .empty⟩ = .error .keyError :=
  ⟨rfl, rfl⟩

/-- C9 amended: when the collectl search finds at least one match the first
match in discovery order is used and the multiple-match warning is logged
exactly when more than one was found; but when no resource data can be
located, acquisition fails (`IndexError` from `resource_files[0]`, or
`KeyError` from parsing the empty dict of an empty/malformed benchmark
file) rather than yielding a zero-valued ResourceStat. -/
theorem c9_resource_lookup_behaviour (f : String) (rest : List String) :
    collectlGetResourceOutputFile (f :: rest) = (decide (rest.length + 1 > 1), .ok f) ∧
    collectlGetResourceOutputFile [] = (false, .error .indexError) ∧
    (∀ p : String, fioResourceGet ⟨p, .empty⟩ = .error .keyError) ∧
    (∀ p : String, fioResourceGet ⟨p, .malformed⟩ = .error .keyError) :=
  ⟨rfl, rfl, fun _ => rfl, fun _ => rfl⟩

/-- C8 counterexample: a pure-read file whose single read section has
`total_ios = 1` (the zero-weight write side present) does not yield the read
side's statistics — the standard-deviation combinator divides by
`total_ios - 1 = 0` and the reader fails with the division error. -/
theorem c8_pure_read_single_sample_fails :
    getIoDetails [⟨[("read", ⟨4096, 4096, 1, 1, 100, 0⟩),
      ("write", ⟨0, 0, 0, 0, 0, 0⟩)], none, none⟩] = .error .zeroDivisionError :=
  rfl

/-- C8 amended: for a file with both a read and a write sub-section the
per-file record sums `io_bytes`, `bw_bytes` and `iops` and combines the
latency statistics via the weighted numeric combinators with each side's
`total_ios` as weight; a pure file whose unused side is all zeros yields the
used side's statistics uncorrupted provided it has at least 2 samples and a
nonnegative stddev (one sample makes the stddev combinator divide by zero);
and the mixed combined mean of the documented example lies strictly between
the two input means, closer to the mean with the larger sample count. -/
theorem c8_mixed_and_pure_file_statistics :
    (∀ (r w : JobData) (sys usr : Option ℝ) (L S : ℝ),
      sum_mean_values [r.clat_mean, w.clat_mean] [r.total_ios, w.total_ios]
        (r.total_ios + w.total_ios) = .ok L →
      sum_standard_deviation_values [r.clat_stddev, w.clat_stddev]
        [r.total_ios, w.total_ios] [r.clat_mean, w.clat_mean]
        (r.total_ios + w.total_ios) L = .ok S →
      getIoDetails [⟨[("read", r), ("write", w)], sys, usr⟩] =
        .ok ⟨((r.io_bytes + w.io_bytes : ℤ) : ℝ), ((r.bw_bytes + w.bw_bytes : ℤ) : ℝ),
          r.iops + w.iops, L, S, r.total_ios + w.total_ios⟩) ∧
    (∀ r : JobData, 2 ≤ r.total_ios → 0 ≤ r.clat_stddev →
      getIoDetails [⟨[("read", r), ("write", ⟨0, 0, 0, 0, 0, 0⟩)], none, none⟩] =
        .ok ⟨(r.io_bytes : ℝ), (r.bw_bytes : ℝ), r.iops, r.clat_mean, r.clat_stddev,
          r.total_ios⟩) ∧
    (∀ C : ℝ,
      sum_mean_values [197739202 / 100, 182525404 / 100] [107504, 117339] 224843 = .ok C →
      (182525404 : ℝ) / 100 < C ∧ C < (197739202 : ℝ) / 100 ∧
      C - 182525404 / 100 < 197739202 / 100 - C) := by
  refine ⟨?_, ?_, ?_⟩
  · intro r w sys usr L S hmean hstd
    unfold getIoDetails
    dsimp only
    have hsec : sectionsOfInterest [⟨[("read", r), ("write", w)], sys, usr⟩] =
        [("read", r), ("write", w)] := rfl
    rw [hsec]
    simp only [List.map_cons, List.map_nil, List.sum_cons, List.sum_nil, add_zero]
    rw [hmean]
    show sum_standard_deviation_values [r.clat_stddev, w.clat_stddev]
      [r.total_ios, w.total_ios] [r.clat_mean, w.clat_mean]
      (r.total_ios + w.total_ios) L >>= _ = _
    rw [hstd]
    rfl
  · intro r htot hstd
    have hne : ((r.total_ios : ℤ) : ℝ) ≠ 0 := by
      have : (2 : ℝ) ≤ ((r.total_ios : ℤ) : ℝ) := by exact_mod_cast htot
      linarith
    have hden : ((r.total_ios : ℤ) : ℝ) - 1 ≠ 0 := by
      have : (2 : ℝ) ≤ ((r.total_ios : ℤ) : ℝ) := by exact_mod_cast htot
      linarith
    have hL : sum_mean_values [r.clat_mean, 0] [r.total_ios, 0] r.total_ios =
        .ok r.clat_mean := by
      unfold sum_mean_values
      rw [if_pos (by simp), if_neg (by omega)]
      have hacc : weightedLatencyAcc [r.clat_mean, 0] [r.total_ios, 0] =
          r.clat_mean * ((r.total_ios : ℤ) : ℝ) := by
        simp [weightedLatencyAcc]
      rw [hacc, mul_div_assoc, div_self hne, mul_one]
    have hacc2 : weightedStddevAcc [r.clat_stddev, 0] [r.total_ios, 0] [r.clat_mean, 0] =
        (((r.total_ios : ℤ) : ℝ) - 1) * r.clat_stddev * r.clat_stddev +
          ((r.total_ios : ℤ) : ℝ) * (r.clat_mean * r.clat_mean) := by
      simp [weightedStddevAcc]
    have hrad : (weightedStddevAcc [r.clat_stddev, 0] [r.total_ios, 0] [r.clat_mean, 0] -
        ((r.total_ios : ℤ) : ℝ) * r.clat_mean * r.clat_mean) /
          (((r.total_ios : ℤ) : ℝ) - 1) = r.clat_stddev * r.clat_stddev := by
      rw [hacc2]
      field_simp
      ring
    have hS : sum_standard_deviation_values [r.clat_stddev, 0] [r.total_ios, 0]
        [r.clat_mean, 0] r.total_ios r.clat_mean = .ok r.clat_stddev := by
      unfold sum_standard_deviation_values
      rw [if_pos (by simp), if_neg (by omega)]
      rw [if_neg (by rw [hrad]; exact not_lt.mpr (mul_self_nonneg _)), hrad,
        Real.sqrt_mul_self hstd]
    unfold getIoDetails
    dsimp only
    have hsec : sectionsOfInterest
        [⟨[("read", r), ("write", (⟨0, 0, 0, 0, 0, 0⟩ : JobData))], none, none⟩] =
        [("read", r), ("write", ⟨0, 0, 0, 0, 0, 0⟩)] := rfl
    rw [hsec]
    simp only [List.map_cons, List.map_nil, List.sum_cons, List.sum_nil, add_zero]
    rw [hL]
    show sum_standard_deviation_values [r.clat_stddev, 0] [r.total_ios, 0]
      [r.clat_mean, 0] r.total_ios r.clat_mean >>= _ = _
    rw [hS]
    rfl
  · intro C hC
    unfold sum_mean_values at hC
    rw [if_pos (by simp), if_neg (by decide)] at hC
    have hacc : weightedLatencyAcc [(197739202 : ℝ) / 100, 182525404 / 100]
        [107504, 117339] =
        197739202 / 100 * 107504 + 182525404 / 100 * 117339 := by
      simp [weightedLatencyAcc]
    rw [hacc] at hC
    have hCv : C = (197739202 / 100 * 107504 + 182525404 / 100 * 117339) /
        ((224843 : ℤ) : ℝ) := (Except.ok.inj hC).symm
    rw [hCv]
    norm_num

/-- C8 witness: the amended theorem applied to concrete mixed and pure files
and to the documented read/write example. -/
theorem c8_mixed_and_pure_file_statistics_witness :
    getIoDetails [⟨[("read", ⟨10, 20, 2, 2, 6, 1⟩),
      ("write", ⟨30, 40, 3, 2, 8, 1⟩)], none, none⟩] =
      .ok ⟨(((10 : ℤ) + 30 : ℤ) : ℝ), (((20 : ℤ) + 40 : ℤ) : ℝ), (2 : ℝ) + 3, 7,
        Real.sqrt 2, 4⟩ ∧
    getIoDetails [⟨[("read", ⟨10, 20, 2, 2, 6, 1⟩),
      ("write", ⟨0, 0, 0, 0, 0, 0⟩)], none, none⟩] =
      .ok ⟨((10 : ℤ) : ℝ), ((20 : ℤ) : ℝ), 2, 6, 1, 2⟩ ∧
    ((182525404 : ℝ) / 100 <
        ((197739202 : ℝ) / 100 * 107504 + 182525404 / 100 * 117339) / 224843 ∧
      ((197739202 : ℝ) / 100 * 107504 + 182525404 / 100 * 117339) / 224843 <
        (197739202 : ℝ) / 100 ∧
      ((197739202 : ℝ) / 100 * 107504 + 182525404 / 100 * 117339) / 224843 -
          (182525404 : ℝ) / 100 <
        (197739202 : ℝ) / 100 -
          ((197739202 : ℝ) / 100 * 107504 + 182525404 / 100 * 117339) / 224843) := by
  obtain ⟨ha, hb, hc⟩ := c8_mixed_and_pure_file_statistics
  refine ⟨?_, ?_, ?_⟩
  · have hmean : sum_mean_values [(6 : ℝ), 8] [(2 : ℤ), 2] 4 = .ok 7 := by
      unfold sum_mean_values
      rw [if_pos (by simp), if_neg (by decide)]
      have : weightedLatencyAcc [(6 : ℝ), 8] [(2 : ℤ), 2] = 28 := by
        simp [weightedLatencyAcc]
        norm_num
      rw [this]
      norm_num
    have hstd : sum_standard_deviation_values [(1 : ℝ), 1] [(2 : ℤ), 2] [(6 : ℝ), 8] 4 7 =
        .ok (Real.sqrt 2) := by
      unfold sum_standard_deviation_values
      rw [if_pos (by simp), if_neg (by decide)]
      have hacc : weightedStddevAcc [(1 : ℝ), 1] [(2 : ℤ), 2] [(6 : ℝ), 8] = 202 := by
        simp [weightedStddevAcc]
        norm_num
      have hrad : (weightedStddevAcc [(1 : ℝ), 1] [(2 : ℤ), 2] [(6 : ℝ), 8] -
          ((4 : ℤ) : ℝ) * 7 * 7) / (((4 : ℤ) : ℝ) - 1) = 2 := by
        rw [hacc]
        norm_num
      rw [if_neg (by rw [hrad]; norm_num), hrad]
    exact ha ⟨10, 20, 2, 2, 6, 1⟩ ⟨30, 40, 3, 2, 8, 1⟩ none none 7 (Real.sqrt 2) hmean hstd
  · exact hb ⟨10, 20, 2, 2, 6, 1⟩ (by decide) (by norm_num)
  · have hC : sum_mean_values [(197739202 : ℝ) / 100, 182525404 / 100] [107504, 117339]
        224843 =
        .ok ((197739202 / 100 * 107504 + 182525404 / 100 * 117339) / 224843) := by
      unfold sum_mean_values
      rw [if_pos (by simp), if_neg (by decide)]
      have : weightedLatencyAcc [(197739202 : ℝ) / 100, 182525404 / 100]
          [107504, 117339] = 197739202 / 100 * 107504 + 182525404 / 100 * 117339 := by
        simp [weightedLatencyAcc]
      rw [this]
      norm_num
    exact hc (((197739202 : ℝ) / 100 * 107504 + 182525404 / 100 * 117339) / 224843) hC

/-- C10: `RunResult.get` is idempotent after the first call — a successful
call leaves the object flagged as processed, and any further call returns the
very same map and state without reprocessing, so repeated retrieval cannot
double-count a shard. -/
theorem c10_get_idempotent (o : RunResultState) (m : RunMap) (o' : RunResultState)
    (h : runResultGet o = .ok (m, o')) :
    o'.has_been_processed = true ∧
    o'.processed_data = m ∧
    runResultGet o' = .ok (m, o') := by
  by_cases hb : o.has_been_processed
  · unfold runResultGet at h
    rw [if_pos hb] at h
    cases h
    exact ⟨hb, rfl, by unfold runResultGet; rw [if_pos hb]⟩
  · unfold runResultGet at h
    rw [if_neg hb] at h
    cases hp : runResultProcess o with
    | error e =>
      rw [hp] at h
      exact Except.noConfusion
        (show (Except.error e : Except PyErr (RunMap × RunResultState)) = .ok (m, o') from h)
    | ok o2 =>
      rw [hp] at h
      have h3 : (o2.processed_data, o2) = (m, o') :=
        Except.ok.inj
          (show (Except.ok (o2.processed_data, o2) : Except PyErr (RunMap × RunResultState)) =
            .ok (m, o') from h)
      have hm : o2.processed_data = m := congrArg Prod.fst h3
      have ho : o2 = o' := congrArg Prod.snd h3
      have hflag : o2.has_been_processed = true := runResultProcess_sets_flag o o2 hp
      subst ho
      subst hm
      exact ⟨hflag, rfl, by unfold runResultGet; rw [if_pos hflag]⟩

/-- C10 witness: an unprocessed empty run — the first `get` processes and
flags the state, and the idempotence theorem applies to that call. -/
theorem c10_get_idempotent_witness :
    runResultGet ⟨[], false, []⟩ = .ok ([], ⟨[], true, []⟩) ∧
    runResultGet ⟨[], true, []⟩ = .ok ([], ⟨[], true, []⟩) :=
  ⟨rfl, (c10_get_idempotent ⟨[], false, []⟩ [] ⟨[], true, []⟩ rfl).2.2⟩

end Cbt
